import Mathlib

/-!
Shallow embedding of the authenticated-encryption subsystem
(`EncryptionManager` in `src/backend/ml/cpp/eaglearn_ml.cpp`, lines 757-923).

Modelling conventions:
* C++ byte sequences (`std::string`, `std::vector<unsigned char>`) are
  `List Nat` with each element below 256; the encoded text is `List Char`.
* The external OpenSSL primitives are not part of this repository, so they
  are modelled as explicit parameters: `pbkdf2` stands for the output of
  `PKCS5_PBKDF2_HMAC(secret, salt_, 100000, EVP_sha256(), 32, ...)` as a
  function of the secret (the salt and iteration count are fixed by the
  call site), `genc key nonce pt` for the EVP AES-256-GCM encryption
  (returning the ciphertext and the 16-byte tag fetched by
  `EVP_CTRL_GCM_GET_TAG`), and `gdec key nonce ct tag` for EVP AES-256-GCM
  decryption returning `none` exactly when `EVP_DecryptFinal_ex` reports
  tag-verification failure.  The fresh nonce sampled by
  `RAND_bytes(nonce, 12)` is likewise a parameter, so theorems quantify
  over every value it may take.  Facts that are part of the primitives'
  documented contracts (PBKDF2 emits exactly 32 bytes here, GCM ciphertext
  has the plaintext's length, the tag has 16 bytes, GCM decryption inverts
  GCM encryption under the same key and nonce) appear as explicit
  hypotheses, and the `toyEnc`/`toyDec`/`constOnes` stand-ins below
  instantiate them for concrete witnesses.
* The base64 loops of `encrypt` (lines 824-838) and `decrypt`
  (lines 851-884) are embedded concretely, table for table.
* The three `std::runtime_error` throws are mapped to an error type
  following the spec's taxonomy: "Encryption key not set" is
  `KeyNotConfigured`, "Invalid encrypted data" is `MalformedEnvelope`,
  "Decryption failed" is `AuthenticationFailure`.  When the decode loop of
  `decrypt` would read past the end of the input string (which happens
  exactly when the input length is 1 or 2 modulo 4), the C++ behaviour is
  undefined; the embedding marks that case with a distinguished
  `UndefinedBehavior` value and no theorem relies on that branch.
-/

namespace Eaglearn

/-- The encoder alphabet, `b64_chars` at line 824 of the source. -/
def b64_chars : List Char :=
  "ABCDEFGHIJKLMNOPQRSTUVWXYZabcdefghijklmnopqrstuvwxyz0123456789+/".data

/-- Indexing `b64_chars[i]`; the source only ever indexes with `i < 64`. -/
def b64tbl (i : Nat) : Char := b64_chars.getD i 'A'

/-- The base64 encoding loop of `encrypt`, lines 827-836: three input bytes
per iteration, missing bytes read as 0 and the corresponding output
characters replaced by `=` padding. -/
def b64encode : List Nat → List Char
  | [] => []
  | [b1] =>
      [b64tbl (b1 >>> 2), b64tbl ((b1 &&& 3) <<< 4), '=', '=']
  | [b1, b2] =>
      [b64tbl (b1 >>> 2), b64tbl (((b1 &&& 3) <<< 4) ||| (b2 >>> 4)),
       b64tbl ((b2 &&& 15) <<< 2), '=']
  | b1 :: b2 :: b3 :: rest =>
      b64tbl (b1 >>> 2) :: b64tbl (((b1 &&& 3) <<< 4) ||| (b2 >>> 4)) ::
      b64tbl (((b2 &&& 15) <<< 2) ||| (b3 >>> 6)) :: b64tbl (b3 &&& 63) ::
      b64encode rest

/-- The 256-entry decode table `b64_decode_map` of `decrypt`,
lines 851-868, copied verbatim. -/
def b64_decode_map : List Int :=
  [-1,-1,-1,-1,-1,-1,-1,-1,-1,-1,-1,-1,-1,-1,-1,-1,
   -1,-1,-1,-1,-1,-1,-1,-1,-1,-1,-1,-1,-1,-1,-1,-1,
   -1,-1,-1,-1,-1,-1,-1,-1,-1,-1,-1,62,-1,-1,-1,63,
   52,53,54,55,56,57,58,59,60,61,-1,-1,-1,-1,-1,-1,
   -1, 0, 1, 2, 3, 4, 5, 6, 7, 8, 9,10,11,12,13,14,
   15,16,17,18,19,20,21,22,23,24,25,-1,-1,-1,-1,-1,
   -1,26,27,28,29,30,31,32,33,34,35,36,37,38,39,40,
   41,42,43,44,45,46,47,48,49,50,51,-1,-1,-1,-1,-1,
   -1,-1,-1,-1,-1,-1,-1,-1,-1,-1,-1,-1,-1,-1,-1,-1,
   -1,-1,-1,-1,-1,-1,-1,-1,-1,-1,-1,-1,-1,-1,-1,-1,
   -1,-1,-1,-1,-1,-1,-1,-1,-1,-1,-1,-1,-1,-1,-1,-1,
   -1,-1,-1,-1,-1,-1,-1,-1,-1,-1,-1,-1,-1,-1,-1,-1,
   -1,-1,-1,-1,-1,-1,-1,-1,-1,-1,-1,-1,-1,-1,-1,-1,
   -1,-1,-1,-1,-1,-1,-1,-1,-1,-1,-1,-1,-1,-1,-1,-1,
   -1,-1,-1,-1,-1,-1,-1,-1,-1,-1,-1,-1,-1,-1,-1,-1,
   -1,-1,-1,-1,-1,-1,-1,-1,-1,-1,-1,-1,-1,-1,-1,-1]

/-- Value of `(unsigned char) b64_decode_map[c]`: the `-1` entries wrap to
255 when stored into the `unsigned char` locals of the decode loop. -/
def decVal (c : Char) : Nat :=
  ((b64_decode_map.getD c.toNat (-1)) % (256 : Int)).toNat

/-- One iteration of the decode loop of `decrypt`, lines 872-883: reads
four characters, pushes one byte always and the second and third bytes
only when the third and fourth characters are not `=`.  Arithmetic on the
`unsigned char` locals wraps modulo 256 on `push_back`. -/
def decode4 (c1 c2 c3 c4 : Char) : List Nat :=
  let b1 := decVal c1
  let b2 := decVal c2
  let b3 := if c3 = '=' then 0 else decVal c3
  let b4 := if c4 = '=' then 0 else decVal c4
  [((b1 <<< 2) ||| (b2 >>> 4)) % 256]
    ++ (if c3 = '=' then [] else [(((b2 &&& 15) <<< 4) ||| (b3 >>> 2)) % 256])
    ++ (if c4 = '=' then [] else [(((b3 &&& 3) <<< 6) ||| b4) % 256])

/-- The decode loop of `decrypt`, lines 870-884, advancing four characters
per iteration.  A trailing group of three characters is processed with the
in-bounds read `s[s.length]`, which C++ defines to yield the null
character for `std::string::operator[]`; a trailing group of one or two
characters makes the loop read past `s.length`, which is undefined
behaviour, modelled as `none`. -/
def b64decode : List Char → Option (List Nat)
  | [] => some []
  | [c1, c2, c3] => some (decode4 c1 c2 c3 (Char.ofNat 0))
  | c1 :: c2 :: c3 :: c4 :: rest =>
      match b64decode rest with
      | some tail => some (decode4 c1 c2 c3 c4 ++ tail)
      | none => none
  | _ => none

/-- Error taxonomy of the subsystem; see the module header for the mapping
from the `std::runtime_error` messages of the source. -/
inductive CryptoError where
  | KeyNotConfigured
  | MalformedEnvelope
  | AuthenticationFailure
  | UndefinedBehavior
  deriving DecidableEq

/-- `EncryptionManager::derive_key`, lines 762-778: a fresh 32-byte
zero-initialised buffer, overwritten by the PBKDF2 output only when the
master key is non-empty. -/
def derive_key (pbkdf2 : List Nat → List Nat) (master_key : List Nat) :
    List Nat :=
  if master_key = [] then List.replicate 32 0 else pbkdf2 master_key

/-- `EncryptionManager::encrypt`, lines 780-839: empty-plaintext
short-circuit, defensive key check, AEAD encryption under the sampled
nonce, envelope assembly `nonce ++ tag ++ ciphertext` (lines 817-821),
base64 encoding. -/
def encrypt (genc : List Nat → List Nat → List Nat → List Nat × List Nat)
    (key nonce plaintext : List Nat) : Except CryptoError (List Char) :=
  if plaintext = [] then .ok []
  else if key = [] then .error .KeyNotConfigured
  else
    let ct := (genc key nonce plaintext).1
    let tag := (genc key nonce plaintext).2
    .ok (b64encode (nonce ++ tag ++ ct))

/-- `EncryptionManager::decrypt`, lines 841-923: empty-input
short-circuit, defensive key check, base64 decode, minimum-length check,
split into nonce (first 12 bytes), tag (next 16) and ciphertext
(remainder), AEAD decryption with tag verification.  On verification
failure the C++ throws, so the locally decrypted buffer is discarded and
no plaintext reaches the caller; the embedding renders this as an
`AuthenticationFailure` error value carrying no plaintext. -/
def decrypt (gdec : List Nat → List Nat → List Nat → List Nat →
      Option (List Nat)) (key : List Nat) (encrypted : List Char) :
    Except CryptoError (List Nat) :=
  if encrypted = [] then .ok []
  else if key = [] then .error .KeyNotConfigured
  else
    match b64decode encrypted with
    | none => .error .UndefinedBehavior
    | some data =>
      if data.length < 28 then .error .MalformedEnvelope
      else
        match gdec key (data.take 12) (data.drop 28)
            ((data.drop 12).take 16) with
        | some pt => .ok pt
        | none => .error .AuthenticationFailure

/-- Concrete stand-in for the AEAD encryption primitive, used to
instantiate witnesses: shifts every byte and emits a constant tag. -/
def toyEnc (_key _nonce pt : List Nat) : List Nat × List Nat :=
  (pt.map (fun b => (b + 1) % 256), List.replicate 16 7)

/-- Concrete stand-in for the AEAD decryption primitive matching
`toyEnc`: accepts exactly the constant tag. -/
def toyDec (_key _nonce ct tag : List Nat) : Option (List Nat) :=
  if tag = List.replicate 16 7 then
    some (ct.map (fun b => (b + 255) % 256))
  else none

/-- Concrete stand-in for the PBKDF2 primitive, used in witnesses. -/
def constOnes : List Nat → List Nat := fun _ => List.replicate 32 1

theorem nand3 (x : Nat) : x &&& 3 = x % 4 := Nat.and_pow_two_sub_one_eq_mod x 2

theorem nand15 (x : Nat) : x &&& 15 = x % 16 := Nat.and_pow_two_sub_one_eq_mod x 4

theorem nand63 (x : Nat) : x &&& 63 = x % 64 := Nat.and_pow_two_sub_one_eq_mod x 6

theorem nshr2 (x : Nat) : x >>> 2 = x / 4 := Nat.shiftRight_eq_div_pow x 2

theorem nshr4 (x : Nat) : x >>> 4 = x / 16 := Nat.shiftRight_eq_div_pow x 4

theorem nshr6 (x : Nat) : x >>> 6 = x / 64 := Nat.shiftRight_eq_div_pow x 6

theorem nshl2 (x : Nat) : x <<< 2 = x * 4 := Nat.shiftLeft_eq x 2

theorem nshl4 (x : Nat) : x <<< 4 = x * 16 := Nat.shiftLeft_eq x 4

theorem nshl6 (x : Nat) : x <<< 6 = x * 64 := Nat.shiftLeft_eq x 6

theorem orAdd4 (a b : Nat) (h : b < 4) : (a * 4) ||| b = a * 4 + b := by
  have h2 : b < 2 ^ 2 := lt_of_lt_of_le h (by norm_num)
  simpa [mul_comm] using (Nat.mul_add_lt_is_or h2 a).symm

theorem orAdd16 (a b : Nat) (h : b < 16) : (a * 16) ||| b = a * 16 + b := by
  have h2 : b < 2 ^ 4 := lt_of_lt_of_le h (by norm_num)
  simpa [mul_comm] using (Nat.mul_add_lt_is_or h2 a).symm

theorem orAdd64 (a b : Nat) (h : b < 64) : (a * 64) ||| b = a * 64 + b := by
  have h2 : b < 2 ^ 6 := lt_of_lt_of_le h (by norm_num)
  simpa [mul_comm] using (Nat.mul_add_lt_is_or h2 a).symm

/-- Decoding a character produced by the encoder table recovers the
6-bit value: the decode table of lines 851-868 inverts the alphabet of
line 824. -/
theorem decVal_b64tbl : ∀ v < 64, decVal (b64tbl v) = v := by decide

/-- No alphabet character is the padding character. -/
theorem b64tbl_ne_pad : ∀ v < 64, b64tbl v ≠ '=' := by decide

theorem decode4_encode1 (b1 : Nat) (h1 : b1 < 256) :
    decode4 (b64tbl (b1 >>> 2)) (b64tbl ((b1 &&& 3) <<< 4)) '=' '=' = [b1] := by
  have v1 : b1 >>> 2 < 64 := by simp only [nshr2]; omega
  have v2 : (b1 &&& 3) <<< 4 < 64 := by simp only [nand3, nshl4]; omega
  simp only [decode4, decVal_b64tbl _ v1, decVal_b64tbl _ v2,
    if_pos (rfl : ('=' : Char) = '='), if_true, List.append_nil]
  simp only [nand3, nshl2, nshl4, nshr2, nshr4]
  rw [orAdd4 (b1 / 4) _ (by omega)]
  simp only [List.cons.injEq, and_true]
  omega

theorem decode4_encode2 (b1 b2 : Nat) (h1 : b1 < 256) (h2 : b2 < 256) :
    decode4 (b64tbl (b1 >>> 2)) (b64tbl (((b1 &&& 3) <<< 4) ||| (b2 >>> 4)))
      (b64tbl ((b2 &&& 15) <<< 2)) '=' = [b1, b2] := by
  have v1 : b1 >>> 2 < 64 := by simp only [nshr2]; omega
  have v2 : ((b1 &&& 3) <<< 4) ||| (b2 >>> 4) < 64 := by
    simp only [nand3, nshl4, nshr4]; rw [orAdd16 _ _ (by omega)]; omega
  have v3 : (b2 &&& 15) <<< 2 < 64 := by simp only [nand15, nshl2]; omega
  simp only [decode4, decVal_b64tbl _ v1, decVal_b64tbl _ v2, decVal_b64tbl _ v3,
    if_neg (b64tbl_ne_pad _ v3), if_pos (rfl : ('=' : Char) = '='), if_true,
    List.append_nil]
  simp only [nand3, nand15, nshl2, nshl4, nshr2, nshr4]
  rw [orAdd16 (b1 % 4) _ (by omega)]
  rw [orAdd4 (b1 / 4) _ (by omega), orAdd16 _ _ (by omega)]
  simp only [List.singleton_append, List.cons.injEq, and_true]
  exact ⟨by omega, by omega⟩

theorem decode4_encode3 (b1 b2 b3 : Nat) (h1 : b1 < 256) (h2 : b2 < 256)
    (h3 : b3 < 256) :
    decode4 (b64tbl (b1 >>> 2)) (b64tbl (((b1 &&& 3) <<< 4) ||| (b2 >>> 4)))
      (b64tbl (((b2 &&& 15) <<< 2) ||| (b3 >>> 6))) (b64tbl (b3 &&& 63)) =
      [b1, b2, b3] := by
  have v1 : b1 >>> 2 < 64 := by simp only [nshr2]; omega
  have v2 : ((b1 &&& 3) <<< 4) ||| (b2 >>> 4) < 64 := by
    simp only [nand3, nshl4, nshr4]; rw [orAdd16 _ _ (by omega)]; omega
  have v3 : ((b2 &&& 15) <<< 2) ||| (b3 >>> 6) < 64 := by
    simp only [nand15, nshl2, nshr6]; rw [orAdd4 _ _ (by omega)]; omega
  have v4 : b3 &&& 63 < 64 := by simp only [nand63]; omega
  simp only [decode4, decVal_b64tbl _ v1, decVal_b64tbl _ v2, decVal_b64tbl _ v3,
    decVal_b64tbl _ v4, if_neg (b64tbl_ne_pad _ v3), if_neg (b64tbl_ne_pad _ v4)]
  simp only [nand3, nand15, nand63, nshl2, nshl4, nshl6, nshr2, nshr4, nshr6]
  rw [orAdd16 (b1 % 4) _ (by omega), orAdd4 (b2 % 16) _ (by omega)]
  rw [orAdd4 (b1 / 4) _ (by omega), orAdd16 _ _ (by omega), orAdd64 _ _ (by omega)]
  simp only [List.singleton_append, List.cons_append, List.nil_append,
    List.cons.injEq, and_true]
  refine ⟨by omega, by omega, by omega⟩

theorem b64decode_cons4 (c1 c2 c3 c4 : Char) (rest : List Char) :
    b64decode (c1 :: c2 :: c3 :: c4 :: rest) =
      match b64decode rest with
      | some tail => some (decode4 c1 c2 c3 c4 ++ tail)
      | none => none := rfl

/-- Round-trip of the concrete base64 loops: decoding the encoding of any
byte sequence gives back exactly that sequence. -/
theorem b64_roundtrip : ∀ x : List Nat, (∀ b ∈ x, b < 256) →
    b64decode (b64encode x) = some x
  | [], _ => rfl
  | [b1], h => by
      have h1 : b1 < 256 := h b1 (by simp)
      show b64decode (b64tbl (b1 >>> 2) :: b64tbl ((b1 &&& 3) <<< 4) ::
        '=' :: '=' :: []) = some [b1]
      rw [b64decode_cons4]
      show some (decode4 (b64tbl (b1 >>> 2)) (b64tbl ((b1 &&& 3) <<< 4)) '=' '='
        ++ []) = some [b1]
      rw [decode4_encode1 b1 h1]
      rfl
  | [b1, b2], h => by
      have h1 : b1 < 256 := h b1 (by simp)
      have h2 : b2 < 256 := h b2 (by simp)
      show b64decode (b64tbl (b1 >>> 2) ::
        b64tbl (((b1 &&& 3) <<< 4) ||| (b2 >>> 4)) ::
        b64tbl ((b2 &&& 15) <<< 2) :: '=' :: []) = some [b1, b2]
      rw [b64decode_cons4]
      show some (decode4 (b64tbl (b1 >>> 2))
        (b64tbl (((b1 &&& 3) <<< 4) ||| (b2 >>> 4)))
        (b64tbl ((b2 &&& 15) <<< 2)) '=' ++ []) = some [b1, b2]
      rw [decode4_encode2 b1 b2 h1 h2]
      rfl
  | b1 :: b2 :: b3 :: rest, h => by
      have h1 : b1 < 256 := h b1 (by simp)
      have h2 : b2 < 256 := h b2 (by simp)
      have h3 : b3 < 256 := h b3 (by simp)
      have ih := b64_roundtrip rest (fun b hb => h b (by simp [hb]))
      show b64decode (b64tbl (b1 >>> 2) ::
        b64tbl (((b1 &&& 3) <<< 4) ||| (b2 >>> 4)) ::
        b64tbl (((b2 &&& 15) <<< 2) ||| (b3 >>> 6)) :: b64tbl (b3 &&& 63) ::
        b64encode rest) = some (b1 :: b2 :: b3 :: rest)
      rw [b64decode_cons4, ih, decode4_encode3 b1 b2 b3 h1 h2 h3]
      rfl

/-- The encoder emits at least one quartet for a non-empty input. -/
theorem b64encode_ne_nil : ∀ x : List Nat, x ≠ [] → b64encode x ≠ []
  | [], h => absurd rfl h
  | [_], _ => by simp [b64encode]
  | [_, _], _ => by simp [b64encode]
  | _ :: _ :: _ :: _, _ => by simp [b64encode]

/-- The key buffer of `derive_key` always has exactly 32 bytes, whichever
branch is taken (the PBKDF2 contract fills exactly 32 bytes). -/
theorem derive_key_length (pbkdf2 : List Nat → List Nat) (secret : List Nat)
    (h32 : (pbkdf2 secret).length = 32) :
    (derive_key pbkdf2 secret).length = 32 := by
  unfold derive_key
  by_cases h : secret = [] <;> simp [h, h32]

/-- The derived key is never the empty vector, so `key_.empty()` is never
true after construction. -/
theorem derive_key_ne_nil (pbkdf2 : List Nat → List Nat) (secret : List Nat)
    (h32 : (pbkdf2 secret).length = 32) : derive_key pbkdf2 secret ≠ [] := by
  intro he
  have h := derive_key_length pbkdf2 secret h32
  rw [he] at h
  simp at h

/-- On a non-empty input that decodes to at least 28 bytes, `decrypt`
reduces to the AEAD call on the nonce/tag/ciphertext split. -/
theorem decrypt_of_decoded (gdec : List Nat → List Nat → List Nat → List Nat →
      Option (List Nat)) (key : List Nat) (s : List Char) (data : List Nat)
    (hs : s ≠ []) (hk : key ≠ []) (hdec : b64decode s = some data)
    (hlen : ¬ data.length < 28) :
    decrypt gdec key s =
      match gdec key (data.take 12) (data.drop 28) ((data.drop 12).take 16) with
      | some pt => .ok pt
      | none => .error .AuthenticationFailure := by
  simp [decrypt, hs, hk, hdec, hlen]

/-- On a non-empty input that decodes to fewer than 28 bytes, `decrypt`
fails with `MalformedEnvelope` for every AEAD implementation, i.e. before
any AEAD processing. -/
theorem decrypt_malformed (gdec : List Nat → List Nat → List Nat → List Nat →
      Option (List Nat)) (key : List Nat) (s : List Char) (data : List Nat)
    (hs : s ≠ []) (hk : key ≠ []) (hdec : b64decode s = some data)
    (hlen : data.length < 28) :
    decrypt gdec key s = .error .MalformedEnvelope := by
  simp [decrypt, hs, hk, hdec, hlen]

/-- A 40-character input made of the invalid alphabet character `!`
decodes, without any error, to 30 garbage bytes, so it passes the length
check and reaches the AEAD stage: no AEAD implementation can make
`decrypt` report `MalformedEnvelope` on it. -/
theorem decrypt_invalid_alphabet_reaches_aead
    (gdec : List Nat → List Nat → List Nat → List Nat → Option (List Nat)) :
    decrypt gdec [1] (List.replicate 40 '!') ≠ .error .MalformedEnvelope := by
  rw [decrypt_of_decoded gdec [1] (List.replicate 40 '!') (List.replicate 30 255)
    (by decide) (by decide) (by decide) (by decide)]
  cases gdec [1] ((List.replicate 30 255).take 12) ((List.replicate 30 255).drop 28)
    (((List.replicate 30 255).drop 12).take 16) <;> simp


/-- C1: for every plaintext (including the empty one), on a service
constructed with any fixed master secret, decrypting the result of
encrypting it returns exactly the plaintext, for every nonce value the
encrypt call may sample.  The hypotheses state the documented contracts of
the external primitives: PBKDF2 emits 32 bytes, the nonce buffer holds 12
bytes, the tag 16 bytes, and GCM decryption inverts GCM encryption under
the same key and nonce. -/
theorem C1_encrypt_decrypt_roundtrip
    (genc : List Nat → List Nat → List Nat → List Nat × List Nat)
    (gdec : List Nat → List Nat → List Nat → List Nat → Option (List Nat))
    (pbkdf2 : List Nat → List Nat) (secret nonce pt : List Nat) (out : List Char)
    (h32 : (pbkdf2 secret).length = 32)
    (hn : nonce.length = 12)
    (hnB : ∀ b ∈ nonce, b < 256)
    (htag : (genc (derive_key pbkdf2 secret) nonce pt).2.length = 16)
    (htagB : ∀ b ∈ (genc (derive_key pbkdf2 secret) nonce pt).2, b < 256)
    (hctB : ∀ b ∈ (genc (derive_key pbkdf2 secret) nonce pt).1, b < 256)
    (hgcm : gdec (derive_key pbkdf2 secret) nonce
        (genc (derive_key pbkdf2 secret) nonce pt).1
        (genc (derive_key pbkdf2 secret) nonce pt).2 = some pt)
    (henc : encrypt genc (derive_key pbkdf2 secret) nonce pt = .ok out) :
    decrypt gdec (derive_key pbkdf2 secret) out = .ok pt := by
  have hkne := derive_key_ne_nil pbkdf2 secret h32
  by_cases hp : pt = []
  · subst hp
    have hout : out = [] := by
      simp [encrypt] at henc
      exact henc
    subst hout
    rfl
  · set key := derive_key pbkdf2 secret with hkeydef
    set ct := (genc key nonce pt).1 with hctdef
    set tag := (genc key nonce pt).2 with htagdef
    have henv : encrypt genc key nonce pt = .ok (b64encode (nonce ++ tag ++ ct)) := by
      simp [encrypt, hp, hkne]
    have hout : out = b64encode (nonce ++ tag ++ ct) :=
      (Except.ok.inj (henv.symm.trans henc)).symm
    have hbound : ∀ b ∈ nonce ++ tag ++ ct, b < 256 := by
      intro b hb
      simp only [List.mem_append] at hb
      rcases hb with (h | h) | h
      · exact hnB b h
      · exact htagB b h
      · exact hctB b h
    have hdec : b64decode (b64encode (nonce ++ tag ++ ct)) =
        some (nonce ++ tag ++ ct) :=
      b64_roundtrip _ hbound
    have hlen : ¬ (nonce ++ tag ++ ct).length < 28 := by
      simp [List.length_append, hn, htag]
      omega
    have hnne : nonce ≠ [] := by
      intro h; rw [h] at hn; simp at hn
    have henvne : nonce ++ tag ++ ct ≠ [] := by
      simp [List.append_eq_nil, hnne]
    rw [hout]
    rw [decrypt_of_decoded gdec key _ (nonce ++ tag ++ ct)
      (b64encode_ne_nil _ henvne) hkne hdec hlen]
    have t1 : (nonce ++ tag ++ ct).take 12 = nonce := by
      rw [List.append_assoc]
      exact List.take_left' hn
    have t2 : ((nonce ++ tag ++ ct).drop 12).take 16 = tag := by
      rw [List.append_assoc, List.drop_left' hn]
      exact List.take_left' htag
    have t3 : (nonce ++ tag ++ ct).drop 28 = ct := by
      have h28 : (nonce ++ tag).length = 28 := by
        simp [List.length_append, hn, htag]
      exact List.drop_left' h28
    rw [t1, t2, t3, hgcm]

/-- Witness for C1 at the concrete instantiation of the external
primitives and a two-byte plaintext. -/
theorem C1_witness :
    decrypt toyDec (derive_key constOnes [5])
      (b64encode (List.range 12 ++ List.replicate 16 7 ++ [105, 106])) =
      .ok [104, 105] :=
  C1_encrypt_decrypt_roundtrip toyEnc toyDec constOnes [5] (List.range 12)
    [104, 105] (b64encode (List.range 12 ++ List.replicate 16 7 ++ [105, 106]))
    (by decide) (by decide) (by decide) (by decide) (by decide) (by decide)
    (by decide) rfl

/-- C2: for every encoded input whose envelope fails authentication-tag
verification (the input reaches the AEAD stage and the verification
returns failure), `decrypt` produces the `AuthenticationFailure` error and
no plaintext at all: the result is the bare error value, which carries no
partial or prefix plaintext. -/
theorem C2_auth_failure_no_plaintext
    (gdec : List Nat → List Nat → List Nat → List Nat → Option (List Nat))
    (key : List Nat) (s : List Char) (data : List Nat)
    (hs : s ≠ []) (hk : key ≠ []) (hdec : b64decode s = some data)
    (hlen : 28 ≤ data.length)
    (hfail : gdec key (data.take 12) (data.drop 28) ((data.drop 12).take 16) =
      none) :
    decrypt gdec key s = .error .AuthenticationFailure := by
  rw [decrypt_of_decoded gdec key s data hs hk hdec (by omega), hfail]

/-- Witness for C2: a 31-byte envelope whose tag the concrete AEAD
stand-in rejects. -/
theorem C2_witness :
    decrypt toyDec [1]
      (b64encode (List.range 12 ++ List.replicate 16 9 ++ [1, 2, 3])) =
      .error .AuthenticationFailure :=
  C2_auth_failure_no_plaintext toyDec [1]
    (b64encode (List.range 12 ++ List.replicate 16 9 ++ [1, 2, 3]))
    (List.range 12 ++ List.replicate 16 9 ++ [1, 2, 3])
    (by decide) (by decide) (by decide) (by decide) (by decide)

/-- C3: evaluation of the code of `decrypt` at the failing input of the
claim, 40 copies of the invalid alphabet character `!`.  The decode loop
maps every `!` through the table to byte 255 without reporting any error,
the resulting 30 garbage bytes pass the length check, and the failure is
the AEAD stage's `AuthenticationFailure` ("Decryption failed"), not the
`MalformedEnvelope` the claim requires; `decrypt_invalid_alphabet_reaches_aead`
above shows no AEAD behaviour can make this input yield
`MalformedEnvelope`. -/
theorem C3_invalid_alphabet_auth_failure :
    decrypt toyDec [1] (List.replicate 40 '!') =
      .error .AuthenticationFailure := rfl

/-- Counterexample for C4: the code skips the PBKDF2 call when the master
secret is empty and returns the zero-initialised buffer, so `derive_key`
on the empty secret differs from the modelled PBKDF2 output (here a
function returning 32 one-bytes). -/
theorem C4_counterexample : derive_key constOnes [] ≠ constOnes [] := by decide

/-- C4 (amended): for every non-empty master secret, `derive_key` returns
exactly the 32-byte PBKDF2 output; for the empty secret it skips PBKDF2
and returns the all-zero 32-byte key. -/
theorem C4_derive_key_amended (pbkdf2 : List Nat → List Nat)
    (secret : List Nat) :
    (secret ≠ [] → derive_key pbkdf2 secret = pbkdf2 secret) ∧
    (secret = [] → derive_key pbkdf2 secret = List.replicate 32 0) := by
  constructor
  · intro h; simp [derive_key, h]
  · intro h; simp [derive_key, h]

/-- Witness for C4 at a one-byte secret and the empty secret. -/
theorem C4_witness :
    derive_key constOnes [5] = constOnes [5] ∧
    derive_key constOnes [] = List.replicate 32 0 :=
  ⟨(C4_derive_key_amended constOnes [5]).1 (by decide),
   (C4_derive_key_amended constOnes []).2 rfl⟩

/-- Counterexample for C5: a non-empty encoded input carrying an
exactly-28-byte envelope (12-byte nonce, 16-byte tag, zero-length
ciphertext) is not rejected by the length check and is accepted by
`decrypt` when its tag verifies, returning the empty plaintext through
the decode path rather than the empty-string short-circuit. -/
theorem C5_counterexample :
    b64encode (List.replicate 12 0 ++ List.replicate 16 7) ≠ [] ∧
    decrypt toyDec [1]
      (b64encode (List.replicate 12 0 ++ List.replicate 16 7)) = .ok [] :=
  ⟨by decide, rfl⟩

/-- C5 (amended): for every non-empty input whose base64 decoding yields
fewer than 28 bytes, `decrypt` fails with `MalformedEnvelope` before any
AEAD processing (the result is the same for every AEAD implementation);
the check does not exclude exactly-28-byte envelopes, so a zero-length
ciphertext whose tag verifies is accepted through the decode path. -/
theorem C5_malformed_amended
    (gdec : List Nat → List Nat → List Nat → List Nat → Option (List Nat))
    (key : List Nat) (s : List Char) (data : List Nat)
    (hs : s ≠ []) (hk : key ≠ []) (hdec : b64decode s = some data)
    (hlen : data.length < 28) :
    decrypt gdec key s = .error .MalformedEnvelope ∧
    decrypt toyDec [1]
      (b64encode (List.replicate 12 0 ++ List.replicate 16 7)) = .ok [] :=
  ⟨decrypt_malformed gdec key s data hs hk hdec hlen, rfl⟩

/-- Witness for C5 at a four-character input decoding to three bytes. -/
theorem C5_witness :
    decrypt toyDec [1] ['A', 'A', 'A', 'A'] = .error .MalformedEnvelope :=
  (C5_malformed_amended toyDec [1] ['A', 'A', 'A', 'A'] [0, 0, 0]
    (by decide) (by decide) (by decide) (by decide)).1

/-- C6: `encrypt` applied to the empty plaintext returns the empty string
and `decrypt` applied to the empty input returns the empty string; both
hold for every AEAD implementation, key and nonce (even an empty key), so
neither call builds an envelope, decodes, or decrypts anything. -/
theorem C6_empty_short_circuit
    (genc : List Nat → List Nat → List Nat → List Nat × List Nat)
    (gdec : List Nat → List Nat → List Nat → List Nat → Option (List Nat))
    (key nonce : List Nat) :
    encrypt genc key nonce [] = .ok [] ∧ decrypt gdec key [] = .ok [] :=
  ⟨rfl, rfl⟩

/-- C7: for every non-empty plaintext, the binary envelope built by
`encrypt` before text encoding is the ordered concatenation of the
12-byte nonce, the 16-byte tag, and the ciphertext, whose length equals
the plaintext's (a GCM contract, taken as hypothesis), so the envelope
has exactly 28 + |plaintext| bytes and always at least 28. -/
theorem C7_envelope_layout
    (genc : List Nat → List Nat → List Nat → List Nat × List Nat)
    (key nonce pt : List Nat) (hpt : pt ≠ []) (hk : key ≠ [])
    (hn : nonce.length = 12)
    (htag : (genc key nonce pt).2.length = 16)
    (hct : (genc key nonce pt).1.length = pt.length) :
    encrypt genc key nonce pt =
      .ok (b64encode (nonce ++ (genc key nonce pt).2 ++ (genc key nonce pt).1)) ∧
    (nonce ++ (genc key nonce pt).2 ++ (genc key nonce pt).1).length =
      28 + pt.length ∧
    28 ≤ (nonce ++ (genc key nonce pt).2 ++ (genc key nonce pt).1).length := by
  refine ⟨by simp [encrypt, hpt, hk], ?_, ?_⟩
  · simp [List.length_append, hn, htag, hct]; omega
  · simp [List.length_append, hn, htag, hct]; omega

/-- Witness for C7 at the concrete AEAD stand-in and a two-byte
plaintext. -/
theorem C7_witness :
    encrypt toyEnc [1] (List.range 12) [104, 105] =
      .ok (b64encode (List.range 12 ++ (toyEnc [1] (List.range 12) [104, 105]).2 ++
        (toyEnc [1] (List.range 12) [104, 105]).1)) ∧
    (List.range 12 ++ (toyEnc [1] (List.range 12) [104, 105]).2 ++
      (toyEnc [1] (List.range 12) [104, 105]).1).length =
      28 + ([104, 105] : List Nat).length ∧
    28 ≤ (List.range 12 ++ (toyEnc [1] (List.range 12) [104, 105]).2 ++
      (toyEnc [1] (List.range 12) [104, 105]).1).length :=
  C7_envelope_layout toyEnc [1] (List.range 12) [104, 105]
    (by decide) (by decide) (by decide) (by decide) (by decide)

/-- C8: the text codec round-trips: for every byte sequence, decoding the
base64 encoding of it (the loops embedded from `encrypt` and `decrypt`)
yields exactly that sequence. -/
theorem C8_codec_roundtrip (x : List Nat) (hx : ∀ b ∈ x, b < 256) :
    b64decode (b64encode x) = some x :=
  b64_roundtrip x hx

/-- Witness for C8 at a sequence of length 37. -/
theorem C8_witness :
    b64decode (b64encode (List.range 37)) = some (List.range 37) :=
  C8_codec_roundtrip (List.range 37) (by decide)

/-- C9: key derivation is deterministic: two calls of `derive_key` on the
same secret (under the same fixed PBKDF2 primitive, salt and iteration
count) produce identical output; the embedding of `derive_key` is a pure
function of the secret because the source uses no randomness there. -/
theorem C9_derive_key_deterministic (pbkdf2 : List Nat → List Nat)
    (s t : List Nat) (h : s = t) :
    derive_key pbkdf2 s = derive_key pbkdf2 t := by rw [h]

/-- Witness for C9 at a concrete secret. -/
theorem C9_witness : derive_key constOnes [1, 2] = derive_key constOnes [1, 2] :=
  C9_derive_key_deterministic constOnes [1, 2] [1, 2] rfl

/-- C10: normal construction always yields key material of exactly 32
bytes (for the empty secret, the all-zero 32-byte key), so the defensive
`key_.empty()` check at the start of `encrypt` and `decrypt` never fires:
neither operation on a normally constructed service can return the
`KeyNotConfigured` error. -/
theorem C10_defensive_check_unreachable
    (pbkdf2 : List Nat → List Nat) (secret : List Nat)
    (genc : List Nat → List Nat → List Nat → List Nat × List Nat)
    (gdec : List Nat → List Nat → List Nat → List Nat → Option (List Nat))
    (nonce pt : List Nat) (s : List Char) (data : List Nat)
    (h32 : (pbkdf2 secret).length = 32) (hdec : b64decode s = some data) :
    (derive_key pbkdf2 secret).length = 32 ∧
    (secret = [] → derive_key pbkdf2 secret = List.replicate 32 0) ∧
    encrypt genc (derive_key pbkdf2 secret) nonce pt ≠
      .error .KeyNotConfigured ∧
    decrypt gdec (derive_key pbkdf2 secret) s ≠ .error .KeyNotConfigured := by
  have hne := derive_key_ne_nil pbkdf2 secret h32
  refine ⟨derive_key_length pbkdf2 secret h32, ?_, ?_, ?_⟩
  · intro h; simp [derive_key, h]
  · by_cases hp : pt = []
    · simp [encrypt, hp]
    · simp [encrypt, hp, hne]
  · by_cases hsn : s = []
    · simp [decrypt, hsn]
    · by_cases hl : data.length < 28
      · rw [decrypt_malformed gdec _ s data hsn hne hdec hl]
        simp
      · rw [decrypt_of_decoded gdec _ s data hsn hne hdec hl]
        cases gdec (derive_key pbkdf2 secret) (data.take 12) (data.drop 28)
          ((data.drop 12).take 16) <;> simp

/-- Witness for C10 at concrete primitives, secret and inputs. -/
theorem C10_witness :
    (derive_key constOnes [5]).length = 32 ∧
    (([5] : List Nat) = [] → derive_key constOnes [5] = List.replicate 32 0) ∧
    encrypt toyEnc (derive_key constOnes [5]) (List.range 12) [104] ≠
      .error .KeyNotConfigured ∧
    decrypt toyDec (derive_key constOnes [5]) ['A', 'A', 'A', 'A'] ≠
      .error .KeyNotConfigured :=
  C10_defensive_check_unreachable constOnes [5] toyEnc toyDec (List.range 12)
    [104] ['A', 'A', 'A', 'A'] [0, 0, 0] (by decide) (by decide)

end Eaglearn
